import Mathlib

/-!
Verification of the forecast aggregator and unit converter of the weather-app
repository, as a shallow embedding in Lean 4.

The repository contains two parallel implementations of the same dashboard
logic: `src/src/main.js` and the unnamed entry file `src/unnamed/part_001`.
Where the two differ, both are embedded (suffix `Main` for `src/src/main.js`,
suffix `P1` for `src/unnamed/part_001`).

Modelling conventions:
* JS numbers are modelled as `ℚ` (the numeric work here is plain rational
  arithmetic on small values) and `Math.round` as `jsRound` below.
* A JS `Date` local calendar day is modelled by its day number
  `(dt + tzOffset) / 86400` (floor division), where `tzOffset` is the local
  timezone offset in seconds.  Two timestamps get equal `toLocaleDateString()`
  keys, respectively equal midnight-aligned `getTime()` keys, exactly when
  their day numbers agree, and the numeric order of midnight keys is the order
  of day numbers, so this models both keying schemes.
* JS objects used as insertion-ordered dictionaries are modelled as
  association lists built by a left fold.
* `fetch` results are modelled by an explicit success/failure sum; DOM text
  slots are modelled by a record of strings.
-/

set_option linter.unusedSectionVars false

namespace WeatherApp

/-- One 3-hour forecast sample, from the `forecastData.list` entries used by
the code: `item.dt`, `item.main.temp`, `item.weather[0].icon`, plus the
humidity / wind / rain fields of the payload (unused by the bucketing). -/
structure Sample where
  dt : Int
  temp : ℚ
  icon : String
  humidity : Int := 0
  wind : ℚ := 0
  rain : Option ℚ := none
deriving DecidableEq

/-- The forecast payload: `forecastData.list`. -/
structure ForecastData where
  list : List Sample
deriving DecidableEq

/-- JS `Math.round`: round half toward positive infinity. -/
def jsRound (q : ℚ) : ℤ := ⌊q + 1 / 2⌋

/-- From `src/src/main.js` (and identically `part_001`):
`Math.round((celsius * 9) / 5 + 32)`. -/
def celsiusToFahrenheit (celsius : ℚ) : ℤ := jsRound (celsius * 9 / 5 + 32)

/-- From `src/src/main.js` (and identically `part_001`):
`Math.round(((fahrenheit - 32) * 5) / 9)`. -/
def fahrenheitToCelsius (fahrenheit : ℚ) : ℤ := jsRound ((fahrenheit - 32) * 5 / 9)

/-- From `src/src/main.js`: `Math.round(mps * 2.237)`. -/
def mpsToMph (mps : ℚ) : ℤ := jsRound (mps * 2.237)

/-- From `src/src/main.js`: `Math.round(mps * 3.6)`. -/
def mpsToKmh (mps : ℚ) : ℤ := jsRound (mps * 3.6)

/-- The spec's Celsius→Fahrenheit formula `round(c * 9/5 + 32)`, written
exactly as the spec words it (for the refinement comparison in C4). -/
def specC2F (c : ℚ) : ℤ := jsRound (c * (9 / 5) + 32)

/-- The spec's Fahrenheit→Celsius formula `round((f - 32) * 5/9)`. -/
def specF2C (f : ℚ) : ℤ := jsRound ((f - 32) * (5 / 9))

/-- JS `s.padStart(2, "0")`. -/
def padStart2 (s : String) : String :=
  if s.length ≥ 2 then s else if s.length = 1 then "0" ++ s else "00"

/-- From `src/src/main.js` `formatTime` (and `part_001` after extracting
`getHours()`): 24-hour gives the zero-padded hour plus ":00"; otherwise
`hours % 12 || 12` with an AM/PM suffix chosen by `hours >= 12`. -/
def formatTime (current24Hour : Bool) (hours : Nat) : String :=
  if current24Hour then
    padStart2 (toString hours) ++ ":00"
  else
    let ampm := if hours ≥ 12 then "PM" else "AM"
    let displayHours := if hours % 12 = 0 then 12 else hours % 12
    toString displayHours ++ " " ++ ampm

/-- The spec's description of time-of-day formatting, written from the spec's
words: 24-hour is the zero-padded hour followed by ":00"; 12-hour is
`h mod 12` with 0 mapped to 12, suffixed with AM when `h < 12` and PM when
`h >= 12` (for the refinement comparison in C5). -/
def specFormatTime (current24Hour : Bool) (h : Nat) : String :=
  if current24Hour then
    (if h < 10 then "0" ++ toString h else toString h) ++ ":00"
  else
    toString (if h % 12 = 0 then 12 else h % 12) ++
      (if h < 12 then " AM" else " PM")

/-- From `src/src/main.js` `loadSettings`: `savedLocation || "Cardiff"`
(and `part_001`: `localStorage.getItem("lastCity") || "Cardiff"`).
`none` models a missing key; a stored empty string is falsy in JS. -/
def loadSettings (savedLocation : Option String) : String :=
  match savedLocation with
  | none => "Cardiff"
  | some s => if s = "" then "Cardiff" else s

/-- Local calendar day number of a Unix timestamp `dt` (seconds), for a fixed
timezone offset `tz` (seconds): models midnight truncation /
`toLocaleDateString()` keying of `new Date(dt * 1000)`. -/
def dateKey (tz : Int) (dt : Int) : Int := (dt + tz) / 86400

section FirstSeen

variable {κ : Type} [BEq κ] [LawfulBEq κ]

/-- Keys of a list in first-seen order with duplicates dropped: the iteration
order of a JS object whose (non-integer-like) keys were inserted by a
left-to-right traversal. -/
def firstSeen : List κ → List κ
  | [] => []
  | x :: xs => x :: (firstSeen xs).filter (fun y => !(y == x))

end FirstSeen

section Grouping

variable {α κ : Type} [BEq κ] [LawfulBEq κ]

/-- One step of the JS grouping loops: `if (!dict[k]) dict[k] = [];
dict[k].push(s)` on an insertion-ordered dictionary. -/
def addToBucket (k : κ) (s : α) : List (κ × List α) → List (κ × List α)
  | [] => [(k, [s])]
  | (k', b) :: rest =>
    if k' == k then (k', b ++ [s]) :: rest else (k', b) :: addToBucket k s rest

/-- The insertion-ordered dictionary built by the grouping loops of
`src/src/main.js` (`updateHourlyForecast`, `updateDailyForecast`) and of
`groupForecastByDay` in `part_001`, for key function `key`. -/
def groupAssoc (key : α → κ) (l : List α) : List (κ × List α) :=
  l.foldl (fun acc s => addToBucket (key s) s acc) []

/-- Spec-side characterization of the grouping dictionary: the first-seen
keys, each mapped to the in-source-order run of elements carrying that key. -/
def assocSpec (key : α → κ) (l : List α) : List (κ × List α) :=
  (firstSeen (l.map key)).map (fun k => (k, l.filter (fun s => key s == k)))

end Grouping

/-- From `part_001` `groupForecastByDay`: group `data.list` by
`toLocaleDateString()` key and return `Object.values`, i.e. the buckets in
key-insertion (first-seen) order. -/
def groupForecastByDay (tz : Int) (data : ForecastData) : List (List Sample) :=
  (groupAssoc (fun item => dateKey tz item.dt) data.list).map Prod.snd

/-- The spec's Day-Bucket partition, written from the spec's words: buckets
in first-seen date-key order, each bucket the in-source-order subsequence of
samples falling on that date. -/
def specDayPartition (tz : Int) (l : List Sample) : List (List Sample) :=
  (firstSeen (l.map (fun s => dateKey tz s.dt))).map
    (fun k => l.filter (fun s => dateKey tz s.dt == k))

/-- From `src/src/main.js` `updateHourlyForecast`:
`Object.keys(dailyForecasts).map(parseInt).sort((a, b) => a - b)`. -/
def sortedDays (tz : Int) (l : List Sample) : List Int :=
  ((groupAssoc (fun item => dateKey tz item.dt) l).map Prod.fst).mergeSort
    (fun a b => decide (a ≤ b))

/-- The day buckets in the ascending-date order used by `src/src/main.js`
(`updateDailyForecast` sorts the grouped days by date;
`updateHourlyForecast` reads `dailyForecasts[sortedDays[dayIndex]]`). -/
def mainDayBuckets (tz : Int) (l : List Sample) : List (List Sample) :=
  (sortedDays tz l).map
    (fun k =>
      (List.lookup k (groupAssoc (fun item => dateKey tz item.dt) l)).getD [])

/-- From `src/src/main.js` `updateHourlyForecast` lines 174-179:
`const selectedDayForecasts = dailyForecasts[sortedDays[dayIndex]] ||
forecastData.list.slice(0, 8)` followed by `selectedDayForecasts.slice(0, 8)`. -/
def selectHourlyMain (tz : Int) (data : ForecastData) (dayIndex : Nat) :
    List Sample :=
  ((((sortedDays tz data.list)[dayIndex]?).bind
    (fun k =>
      List.lookup k (groupAssoc (fun item => dateKey tz item.dt) data.list))).getD
    (data.list.take 8)).take 8

/-- From `part_001` `updateHourlyForecast`: `daysArray[dayIndex]` is the
selected bucket, absent (every card hidden) when the index is out of range;
card `index` then shows `selectedDayItems[index]`. -/
def selectHourlyP1 (tz : Int) (data : ForecastData) (dayIndex : Nat) :
    List Sample :=
  (groupForecastByDay tz data).getD dayIndex []

/-- One step of the counting loop in `getMostCommonIcon`
(`counts[icon] = (counts[icon] || 0) + 1`) on an insertion-ordered
dictionary. -/
def bump : List (String × Nat) → String → List (String × Nat)
  | [], icon => [(icon, 1)]
  | (k, c) :: rest, icon =>
    if k == icon then (k, c + 1) :: rest else (k, c) :: bump rest icon

/-- The `counts` dictionary of `getMostCommonIcon` in `src/src/main.js`. -/
def buildCounts (icons : List String) : List (String × Nat) :=
  icons.foldl bump []

/-- From `src/src/main.js` `getMostCommonIcon`: start from `icons[0]` with
`highestCount = 0`, then walk the keys of `counts` in insertion order and
keep the first key whose count strictly exceeds the best so far.  `none`
models the `undefined` result on empty input. -/
def getMostCommonIcon (icons : List String) : Option String :=
  ((buildCounts icons).foldl
    (fun best kv => if kv.2 > best.2 then (some kv.1, kv.2) else best)
    (icons.head?, 0)).1

/-- From `part_001` `updateDailyForecast` lines 694-698: the day card's icon
code is `dayItems[0].weather[0].icon`, the first sample's code. -/
def dailyIconP1 (dayItems : List Sample) : Option String :=
  dayItems.head?.map Sample.icon

/-- From `src/src/main.js` `updateDailyForecast` lines 336-337 (and
`part_001` lines 684-685): `Math.round(Math.max(...temps))` paired with
`Math.round(Math.min(...temps))`; `none` when the bucket is empty (JS
`Math.max()` of no arguments would give `-Infinity` there, which the code
never reaches because buckets are never empty). -/
def daySummaryTemps (temps : List ℚ) : Option (ℤ × ℤ) :=
  match temps.maximum, temps.minimum with
  | some M, some m => some (jsRound M, jsRound m)
  | _, _ => none

/-- One candidate location match from the geocoding API, as consumed by
`prioritizeCities` in `part_001` (`a.country`, `a.population`). -/
structure City where
  name : String
  country : String
  population : Option Int := none
deriving DecidableEq

/-- From `part_001`: the fixed `PRIORITY_COUNTRIES` array. -/
def PRIORITY_COUNTRIES : List String :=
  ["United Kingdom", "UK", "England", "Scotland", "Wales", "Northern Ireland",
   "United States", "USA", "Canada", "Australia", "Germany", "France",
   "Spain", "Italy", "Netherlands", "Belgium", "Sweden", "Norway", "Denmark",
   "Switzerland", "Poland", "Portugal", "Ireland"]

/-- JS `priorityList.includes(c.country)`. -/
def isPriority (priorityList : List String) (c : City) : Bool :=
  priorityList.contains c.country

/-- JS `c.population || 0`. -/
def popVal (c : City) : Int := c.population.getD 0

/-- The total preorder induced by the comparator of `prioritizeCities`
(`part_001` lines 376-384): `cityLE pl a b` holds exactly when the
comparator returns a value `<= 0` on `(a, b)`, i.e. when a stable sort may
keep `a` before `b`. -/
def cityLE (priorityList : List String) (a b : City) : Bool :=
  if isPriority priorityList a then
    if isPriority priorityList b then decide (popVal b ≤ popVal a) else true
  else
    if isPriority priorityList b then false else decide (popVal b ≤ popVal a)

/-- The sort of `prioritizeCities` for an arbitrary priority list: JS
`Array.prototype.sort` is a stable sort, modelled by `List.mergeSort`. -/
def prioritizeCitiesWith (priorityList : List String) (cities : List City) :
    List City :=
  cities.mergeSort (cityLE priorityList)

/-- From `part_001` `prioritizeCities`: stable sort by the priority-then-
population comparator over the fixed `PRIORITY_COUNTRIES`. -/
def prioritizeCities (cities : List City) : List City :=
  prioritizeCitiesWith PRIORITY_COUNTRIES cities

/-- The current-conditions payload fields read by the code
(`data.name`, `data.sys.country`, `data.main.*`, `data.wind.speed`,
`data.rain["1h"]`, `data.weather[0].icon`). -/
structure CurrentData where
  name : String
  country : String
  temp : ℚ
  feels_like : ℚ
  humidity : Int
  wind_speed : ℚ
  rain1h : Option ℚ := none
  icon : String
deriving DecidableEq

/-- The text slots of the current-weather card
(`locationName`, `currentDate`, `mainTemperature`, `feelsLikeTemp`,
`humidityValue`, `windSpeed`, `precipitationValue`). -/
structure Display where
  locationName : String := ""
  currentDate : String := ""
  mainTemp : String := ""
  feelsLike : String := ""
  humidity : String := ""
  windSpeed : String := ""
  precipitation : String := ""
deriving DecidableEq

/-- Result of one HTTP fetch: a parsed payload, or a failure (non-success
status or transport error). -/
inductive Fetch (α : Type) where
  | ok (a : α)
  | err
deriving DecidableEq

/-- From `part_001`: `Math.round(speed * 1.609)`. -/
def mphToKmh (speed : ℚ) : ℤ := jsRound (speed * 1.609)

/-- From `src/src/main.js` `updateCurrentWeather`; `todayStr` stands for
`formatDate(new Date())`, `windUnit` for the `currentWindUnit` global. -/
def updateCurrentWeatherMain (todayStr windUnit : String) (data : CurrentData)
    (d : Display) : Display :=
  { d with
    locationName := data.name ++ ", " ++ data.country
    currentDate := todayStr
    mainTemp := toString (jsRound data.temp) ++ "°"
    feelsLike := toString (jsRound data.feels_like) ++ "°"
    humidity := toString data.humidity ++ "%"
    windSpeed :=
      toString (if windUnit = "mph" then mpsToMph data.wind_speed
                else mpsToKmh data.wind_speed) ++ " " ++ windUnit
    precipitation :=
      match data.rain1h with
      | some r => if r = 0 then "0 mm" else toString r ++ " mm"
      | none => "0 mm" }

/-- From `part_001` `updateCurrentWeather`; `tempUnit` is the `currentUnit`
global, `speedUnit` the `currentSpeedUnit` global. -/
def updateCurrentWeatherP1 (todayStr tempUnit speedUnit : String)
    (data : CurrentData) (d : Display) : Display :=
  let temp : ℚ :=
    if tempUnit = "fahrenheit" then ((celsiusToFahrenheit data.temp : ℤ) : ℚ)
    else data.temp
  let feelsLike : ℚ :=
    if tempUnit = "fahrenheit" then
      ((celsiusToFahrenheit data.feels_like : ℤ) : ℚ)
    else data.feels_like
  let windMph : ℤ := jsRound (data.wind_speed * 2.237)
  { d with
    locationName := data.name ++ ", " ++ data.country
    currentDate := todayStr
    mainTemp := toString (jsRound temp) ++ "°"
    feelsLike := toString (jsRound feelsLike) ++ "°"
    humidity := toString data.humidity ++ "%"
    windSpeed :=
      if speedUnit = "kmh" then toString (mphToKmh (windMph : ℚ)) ++ " km/h"
      else toString windMph ++ " mph"
    precipitation :=
      match data.rain1h with
      | some r => if r = 0 then "0 mm" else toString r ++ " mm"
      | none => "0 mm" }

/-- The error branch of the `catch` in `src/src/main.js`
`fetchWeatherForCity`. -/
def errorDisplayMain (cityName : String) (d : Display) : Display :=
  { d with
    locationName := "Could not find weather for \"" ++ cityName ++ "\""
    currentDate := "Please try another city"
    mainTemp := "--°"
    feelsLike := "--°"
    humidity := "--%"
    windSpeed := "-- mph"
    precipitation := "-- mm" }

/-- The error branch of the `catch` in `part_001` `fetchWeather`. -/
def errorDisplayP1 (city : String) (d : Display) : Display :=
  { d with
    locationName := "Could not find \"" ++ city ++ "\""
    currentDate := "Please try another city"
    mainTemp := "--°"
    feelsLike := "--°"
    humidity := "--%"
    windSpeed := "-- mph"
    precipitation := "-- mm" }

/-- Outcome of one weather-fetch operation: the resulting display, the HTTP
requests issued (endpoint, city), and the location written to persistent
storage (only written on full success). -/
structure FetchOutcome where
  display : Display
  requests : List (String × String)
  savedLocation : Option String
deriving DecidableEq

/-- From `src/src/main.js` `fetchWeatherForCity`: fetch current conditions
(abort to the catch-branch on failure), render them, fetch the forecast
(abort to the catch-branch on failure), then save the location.  The two
`Fetch` arguments are the responses the network would give to the two
requests; forecast-driven card updates are outside the modelled `Display`. -/
def fetchWeatherForCity (cityName todayStr windUnit : String)
    (currentResp : Fetch CurrentData) (forecastResp : Fetch ForecastData)
    (d : Display) : FetchOutcome :=
  match currentResp with
  | .err => ⟨errorDisplayMain cityName d, [("weather", cityName)], none⟩
  | .ok cur =>
    let d1 := updateCurrentWeatherMain todayStr windUnit cur d
    match forecastResp with
    | .err =>
      ⟨errorDisplayMain cityName d1,
        [("weather", cityName), ("forecast", cityName)], none⟩
    | .ok _fc =>
      ⟨d1, [("weather", cityName), ("forecast", cityName)], some cityName⟩

/-- From `part_001` `fetchWeather` (for the current `city` global): same
shape; a failed forecast response (transport error, or a non-success body
whose `list` is missing, which makes the update code throw inside the same
`try`) also lands in the catch-branch. -/
def fetchWeatherP1 (city todayStr tempUnit speedUnit : String)
    (currentResp : Fetch CurrentData) (forecastResp : Fetch ForecastData)
    (d : Display) : FetchOutcome :=
  match currentResp with
  | .err => ⟨errorDisplayP1 city d, [("weather", city)], none⟩
  | .ok cur =>
    match forecastResp with
    | .err =>
      ⟨errorDisplayP1 city d, [("weather", city), ("forecast", city)], none⟩
    | .ok _fc =>
      ⟨updateCurrentWeatherP1 todayStr tempUnit speedUnit cur d,
        [("weather", city), ("forecast", city)], some city⟩

/-- App startup in `src/src/main.js`: `const lastLocation = loadSettings();
... fetchWeatherForCity(lastLocation)`. -/
def startupMain (savedLocation : Option String) (todayStr windUnit : String)
    (currentResp : Fetch CurrentData) (forecastResp : Fetch ForecastData)
    (d : Display) : FetchOutcome :=
  fetchWeatherForCity (loadSettings savedLocation) todayStr windUnit
    currentResp forecastResp d


/-- A concrete sample on day 0 (UTC), used by concrete instantiations. -/
def sampleEarly : Sample := { dt := 3600, temp := 20, icon := "01d" }

/-- A concrete sample on day 1 (UTC), used by concrete instantiations. -/
def sampleLate : Sample := { dt := 90000, temp := 21, icon := "10d" }

/-- The spec's ranking example: Paris, France, population 2M. -/
def parisFR : City := { name := "Paris", country := "France", population := some 2000000 }

/-- The spec's ranking example: Paris, USA, population 25K. -/
def parisUSA : City := { name := "Paris", country := "USA", population := some 25000 }

/-!  General lemmas about the first-seen key order and the grouping fold. -/

section FirstSeenLemmas

variable {κ : Type} [BEq κ] [LawfulBEq κ]

@[simp] theorem firstSeen_nil : firstSeen ([] : List κ) = [] := rfl

theorem firstSeen_cons (x : κ) (xs : List κ) :
    firstSeen (x :: xs) = x :: (firstSeen xs).filter (fun y => !(y == x)) := rfl

@[simp] theorem mem_firstSeen {a : κ} {xs : List κ} : a ∈ firstSeen xs ↔ a ∈ xs := by
  induction xs with
  | nil => exact Iff.rfl
  | cons x xs ih =>
    simp only [firstSeen_cons, List.mem_cons, List.mem_filter, ih,
      Bool.not_eq_true', beq_eq_false_iff_ne, ne_eq]
    constructor
    · rintro (rfl | ⟨h, _⟩)
      · exact Or.inl rfl
      · exact Or.inr h
    · rintro (rfl | h)
      · exact Or.inl rfl
      · by_cases hax : a = x
        · exact Or.inl hax
        · exact Or.inr ⟨h, hax⟩

theorem nodup_firstSeen : ∀ (xs : List κ), (firstSeen xs).Nodup
  | [] => List.nodup_nil
  | x :: xs => by
    rw [firstSeen_cons]
    refine List.Nodup.cons ?_ (List.Nodup.filter _ (nodup_firstSeen xs))
    intro hx
    rcases List.mem_filter.mp hx with ⟨-, hne⟩
    simp at hne

theorem firstSeen_sublist : ∀ (xs : List κ), (firstSeen xs).Sublist xs
  | [] => List.Sublist.refl _
  | x :: xs => by
    rw [firstSeen_cons]
    exact ((List.filter_sublist _).trans (firstSeen_sublist xs)).cons₂ x

theorem firstSeen_append_singleton (k : κ) : ∀ (xs : List κ),
    firstSeen (xs ++ [k]) = if k ∈ xs then firstSeen xs else firstSeen xs ++ [k]
  | [] => by simp [firstSeen]
  | x :: xs => by
    rw [List.cons_append, firstSeen_cons, firstSeen_append_singleton k xs,
      firstSeen_cons]
    by_cases hmem : k ∈ xs
    · simp [hmem]
    · by_cases hkx : k = x
      · subst hkx
        simp [hmem]
      · have : k ∈ x :: xs ↔ False := by simp [hkx, hmem]
        simp [hmem, this, List.filter_append, hkx]

end FirstSeenLemmas

section GroupingLemmas

variable {α κ : Type} [BEq κ] [LawfulBEq κ]

theorem addToBucket_of_not_mem (k : κ) (s : α) :
    ∀ (A : List (κ × List α)), k ∉ A.map Prod.fst →
    addToBucket k s A = A ++ [(k, [s])]
  | [], _ => rfl
  | (k', b) :: rest, h => by
    have hne : ¬(k' == k) = true := by
      simp only [List.map_cons, List.mem_cons] at h
      simp only [beq_iff_eq]
      exact fun hkk => h (Or.inl hkk.symm)
    simp only [addToBucket, if_neg hne, List.cons_append, List.cons.injEq, true_and]
    exact addToBucket_of_not_mem k s rest
      (fun hm => (by simp only [List.map_cons, List.mem_cons] at h; exact h (Or.inr hm)))

theorem addToBucket_map_of_nodup (k : κ) (s : α) (f : κ → List α) :
    ∀ (K : List κ), K.Nodup → k ∈ K →
    addToBucket k s (K.map (fun j => (j, f j))) =
      K.map (fun j => (j, f j ++ if j == k then [s] else []))
  | [], _, hk => absurd hk (List.not_mem_nil k)
  | k₀ :: Ks, hnd, hk => by
    rcases List.nodup_cons.mp hnd with ⟨hk₀, hnd'⟩
    by_cases h0 : k₀ = k
    · subst h0
      simp only [List.map_cons, addToBucket, beq_self_eq_true, if_true,
        List.cons.injEq, true_and]
      refine (List.map_congr_left ?_).symm
      intro j hj
      have hjk : (j == k₀) = false := by
        simp only [beq_eq_false_iff_ne, ne_eq]
        exact fun hh => hk₀ (hh ▸ hj)
      simp [hjk]
    · have hk' : k ∈ Ks := by
        rcases List.mem_cons.mp hk with h | h
        · exact absurd h.symm h0
        · exact h
      have hne : (k₀ == k) = false := by simpa using h0
      simp only [List.map_cons, addToBucket, hne, Bool.false_eq_true, if_false,
        List.cons.injEq, List.append_nil, true_and]
      exact addToBucket_map_of_nodup k s f Ks hnd' hk'

theorem addToBucket_assocSpec (key : α → κ) (x : α) (l : List α) :
    addToBucket (key x) x (assocSpec key l) = assocSpec key (l ++ [x]) := by
  unfold assocSpec
  rw [List.map_append]
  simp only [List.map_cons, List.map_nil]
  rw [firstSeen_append_singleton]
  by_cases hmem : key x ∈ l.map key
  · rw [if_pos (by simpa using hmem)]
    have hKmem : key x ∈ firstSeen (l.map key) := mem_firstSeen.mpr hmem
    rw [addToBucket_map_of_nodup (key x) x _ _ (nodup_firstSeen _) hKmem]
    refine List.map_congr_left ?_
    intro j hj
    simp only [List.filter_append, Prod.mk.injEq, true_and]
    congr 1
    by_cases hjx : j = key x
    · subst hjx
      simp
    · have h1 : ¬(j == key x) = true := by simpa using hjx
      have h2 : ¬(key x == j) = true := by simpa using fun h => hjx h.symm
      simp [List.filter_cons, h1, h2]
  · rw [if_neg (by simpa using hmem)]
    have hnotK : key x ∉ ((firstSeen (l.map key)).map
        (fun k => (k, l.filter (fun s => key s == k)))).map Prod.fst := by
      simp only [List.map_map]
      intro hcontra
      rcases List.mem_map.mp hcontra with ⟨j, hjK, hjx⟩
      exact hmem (hjx ▸ mem_firstSeen.mp hjK)
    rw [addToBucket_of_not_mem _ _ _ hnotK, List.map_append]
    congr 1
    · refine List.map_congr_left ?_
      intro j hj
      have hj' : j ∈ l.map key := mem_firstSeen.mp hj
      simp only [List.filter_append, Prod.mk.injEq, true_and]
      have hjx : ¬(key x == j) = true := by
        simp only [beq_iff_eq]
        intro h
        exact hmem (h ▸ hj')
      simp [List.filter_cons, hjx]
    · have hfil : l.filter (fun s => key s == key x) = [] := by
        rw [List.filter_eq_nil_iff]
        intro a ha
        simp only [beq_iff_eq]
        intro h
        exact hmem (h ▸ List.mem_map_of_mem key ha)
      simp [List.filter_cons, hfil]

theorem groupAssoc_eq_assocSpec (key : α → κ) (l : List α) :
    groupAssoc key l = assocSpec key l := by
  suffices h : ∀ (r p : List α),
      r.foldl (fun acc s => addToBucket (key s) s acc) (assocSpec key p) =
        assocSpec key (p ++ r) by
    have h0 := h l []
    simpa [groupAssoc, assocSpec, firstSeen] using h0
  intro r
  induction r with
  | nil => intro p; simp
  | cons s r ih =>
    intro p
    have hstep := addToBucket_assocSpec key s p
    calc (s :: r).foldl (fun acc s => addToBucket (key s) s acc) (assocSpec key p)
        = r.foldl (fun acc s => addToBucket (key s) s acc) (assocSpec key (p ++ [s])) := by
          rw [List.foldl_cons, hstep]
      _ = assocSpec key ((p ++ [s]) ++ r) := ih (p ++ [s])
      _ = assocSpec key (p ++ s :: r) := by rw [List.append_assoc]; rfl

theorem lookup_map_pair_of_mem (f : κ → List α) :
    ∀ (K : List κ) (k : κ), k ∈ K →
    List.lookup k (K.map (fun j => (j, f j))) = some (f k)
  | [], k, hk => absurd hk (List.not_mem_nil k)
  | k₀ :: Ks, k, hk => by
    by_cases h0 : k = k₀
    · subst h0
      simp [List.lookup_cons]
    · have hk' : k ∈ Ks := by
        rcases List.mem_cons.mp hk with h | h
        · exact absurd h h0
        · exact h
      have hne : (k == k₀) = false := by simpa using h0
      simp only [List.map_cons, List.lookup_cons, hne]
      exact lookup_map_pair_of_mem f Ks k hk'

theorem flatten_partition_perm (key : α → κ) :
    ∀ (K : List κ) (l : List α), K.Nodup → (∀ s ∈ l, key s ∈ K) →
    List.Perm (K.map (fun k => l.filter (fun s => key s == k))).flatten l
  | [], l, _, hcov => by
    have : l = [] := by
      rw [List.eq_nil_iff_forall_not_mem]
      intro a ha
      exact (List.not_mem_nil (key a)) (hcov a ha)
    simp [this]
  | k :: Ks, l, hnd, hcov => by
    rcases List.nodup_cons.mp hnd with ⟨hkKs, hnd'⟩
    rw [List.map_cons, List.flatten_cons]
    have hmapeq : Ks.map (fun j => l.filter (fun s => key s == j)) =
        Ks.map (fun j => (l.filter (fun s => !(key s == k))).filter
          (fun s => key s == j)) := by
      refine List.map_congr_left ?_
      intro j hj
      rw [List.filter_filter]
      refine List.filter_congr ?_
      intro a ha
      by_cases haj : key a = j
      · have hjk : j ≠ k := fun hh => hkKs (hh ▸ hj)
        have hak : (key a == k) = false := by
          simp only [beq_eq_false_iff_ne, ne_eq, haj]
          exact hjk
        simp [haj, hak, hjk]
      · simp [haj]
    rw [hmapeq]
    have hcov' : ∀ s ∈ l.filter (fun s => !(key s == k)), key s ∈ Ks := by
      intro s hs
      rcases List.mem_filter.mp hs with ⟨hsl, hsk⟩
      rcases List.mem_cons.mp (hcov s hsl) with h | h
      · exact absurd (by simpa using h) (by simpa using hsk)
      · exact h
    have ih := flatten_partition_perm key Ks (l.filter (fun s => !(key s == k)))
      hnd' hcov'
    exact ((ih.append_left _).trans (List.filter_append_perm _ l))

end GroupingLemmas

/-!  Claims C4, C5, C6, C7, C9, C10. -/

/-- C4: for every input `c`, the Celsius→Fahrenheit conversion returns
`round(c * 9/5 + 32)`, and for every `f` the inverse returns
`round((f - 32) * 5/9)`; in particular `celsiusToFahrenheit 20 = 68` and
`fahrenheitToCelsius 68 = 20`. -/
theorem c4_unit_conversions :
    (∀ c : ℚ, celsiusToFahrenheit c = specC2F c) ∧
    (∀ f : ℚ, fahrenheitToCelsius f = specF2C f) ∧
    celsiusToFahrenheit 20 = 68 ∧ fahrenheitToCelsius 68 = 20 := by
  refine ⟨fun c => ?_, fun f => ?_,
    by norm_num [celsiusToFahrenheit, jsRound],
    by norm_num [fahrenheitToCelsius, jsRound]⟩
  · unfold celsiusToFahrenheit specC2F
    congr 1
    ring
  · unfold fahrenheitToCelsius specF2C
    congr 1
    ring

/-- C5: for every hour `h` in 0..23, the time formatter matches the spec's
description in both formats (24-hour: zero-padded hour plus ":00"; 12-hour:
`h mod 12` with 0 mapped to 12 and an AM/PM suffix split at 12), and
`formatTime` gives "15:00", "3 PM" and "12 AM" on the spec's examples. -/
theorem c5_format_time (h : ℕ) (hlt : h < 24) :
    (∀ b : Bool, formatTime b h = specFormatTime b h) ∧
    formatTime true 15 = "15:00" ∧
    formatTime false 15 = "3 PM" ∧
    formatTime false 0 = "12 AM" := by
  refine ⟨?_, by decide, by decide, by decide⟩
  intro b
  interval_cases h <;> cases b <;> decide

/-- Witness for C5 at `h = 15`. -/
theorem c5_format_time_witness :
    formatTime true 15 = specFormatTime true 15 ∧
    formatTime false 15 = specFormatTime false 15 :=
  ⟨(c5_format_time 15 (by decide)).1 true, (c5_format_time 15 (by decide)).1 false⟩

/-- C6: the rounded conversions are not exact inverses: for some integer
`f`, converting to Celsius and back does not return `f`. -/
theorem c6_roundtrip_lossy :
    ∃ f : ℤ, celsiusToFahrenheit ((fahrenheitToCelsius (f : ℚ) : ℤ) : ℚ) ≠ f := by
  refine ⟨69, ?_⟩
  have h1 : fahrenheitToCelsius ((69 : ℤ) : ℚ) = 21 := by
    norm_num [fahrenheitToCelsius, jsRound]
  rw [h1]
  norm_num [celsiusToFahrenheit, jsRound]

/-- C7: for every non-empty bucket of temperatures, the day summary is the
rounded maximum paired with the rounded minimum of the raw temperatures; a
single-sample bucket yields equal min and max; `[18.2, 20.9, 16.4]` yields
`(21, 16)`. -/
theorem c7_day_summary (temps : List ℚ) (h : temps ≠ []) :
    (∃ M m : ℚ, M ∈ temps ∧ m ∈ temps ∧ (∀ t ∈ temps, t ≤ M) ∧
      (∀ t ∈ temps, m ≤ t) ∧
      daySummaryTemps temps = some (jsRound M, jsRound m)) ∧
    (∀ t : ℚ, daySummaryTemps [t] = some (jsRound t, jsRound t)) ∧
    daySummaryTemps [18.2, 20.9, 16.4] = some (21, 16) := by
  have hM3 : ([18.2, 20.9, 16.4] : List ℚ).maximum = (20.9 : ℚ) := by
    rw [List.maximum_eq_coe_iff]
    refine ⟨by simp, ?_⟩
    intro a ha
    simp only [List.mem_cons, List.not_mem_nil, or_false] at ha
    rcases ha with rfl | rfl | rfl <;> norm_num
  have hm3 : ([18.2, 20.9, 16.4] : List ℚ).minimum = (16.4 : ℚ) := by
    rw [List.minimum_eq_coe_iff]
    refine ⟨by simp, ?_⟩
    intro a ha
    simp only [List.mem_cons, List.not_mem_nil, or_false] at ha
    rcases ha with rfl | rfl | rfl <;> norm_num
  refine ⟨?_, ?_, ?_⟩
  case refine_3 =>
    unfold daySummaryTemps
    rw [hM3, hm3]
    norm_num [jsRound]
  · obtain ⟨M, hM⟩ :=
      WithBot.ne_bot_iff_exists.mp (List.maximum_ne_bot_of_ne_nil h)
    obtain ⟨m, hm⟩ :=
      WithTop.ne_top_iff_exists.mp (List.minimum_ne_top_of_ne_nil h)
    rcases List.maximum_eq_coe_iff.mp hM.symm with ⟨hMmem, hMle⟩
    rcases List.minimum_eq_coe_iff.mp hm.symm with ⟨hmmem, hmle⟩
    refine ⟨M, m, hMmem, hmmem, hMle, hmle, ?_⟩
    unfold daySummaryTemps
    rw [← hM, ← hm]
  · intro t
    unfold daySummaryTemps
    rw [List.maximum_singleton, List.minimum_singleton]

/-- Witness for C7 on the spec's example bucket. -/
theorem c7_day_summary_witness :
    daySummaryTemps [18.2, 20.9, 16.4] = some (21, 16) :=
  (c7_day_summary [18.2, 20.9, 16.4] (by decide)).2.2

/-- C9 (amended): on any fetch failure, both implementations recover by
writing an error message naming the searched city — `src/src/main.js`
writes `Could not find weather for "X"`, while `part_001` writes
`Could not find "X"` (without "weather for") — set every numeric display
field to a "--" sentinel, save nothing, and issue no retry (each of the at
most two HTTP requests is issued at most once). -/
theorem c9_fetch_failure (city todayStr windUnit tempUnit speedUnit : String)
    (cur : Fetch CurrentData) (fc : Fetch ForecastData) (d : Display)
    (hfail : cur = Fetch.err ∨ fc = Fetch.err) :
    (fetchWeatherForCity city todayStr windUnit cur fc d).display =
      { locationName := "Could not find weather for \"" ++ city ++ "\""
        currentDate := "Please try another city"
        mainTemp := "--°", feelsLike := "--°", humidity := "--%"
        windSpeed := "-- mph", precipitation := "-- mm" } ∧
    (fetchWeatherForCity city todayStr windUnit cur fc d).savedLocation =
      none ∧
    (fetchWeatherForCity city todayStr windUnit cur fc d).requests.Nodup ∧
    (fetchWeatherForCity city todayStr windUnit cur fc d).requests.length ≤ 2 ∧
    (fetchWeatherP1 city todayStr tempUnit speedUnit cur fc d).display =
      { locationName := "Could not find \"" ++ city ++ "\""
        currentDate := "Please try another city"
        mainTemp := "--°", feelsLike := "--°", humidity := "--%"
        windSpeed := "-- mph", precipitation := "-- mm" } ∧
    (fetchWeatherP1 city todayStr tempUnit speedUnit cur fc d).savedLocation =
      none ∧
    (fetchWeatherP1 city todayStr tempUnit speedUnit cur fc d).requests.Nodup ∧
    (fetchWeatherP1 city todayStr tempUnit speedUnit cur fc d).requests.length
      ≤ 2 := by
  have hwf : ¬("weather", city) = ("forecast", city) := by
    intro hcontra
    have : "weather" = "forecast" := congrArg Prod.fst hcontra
    exact absurd this (by decide)
  rcases hfail with hc | hf
  · subst hc
    simp [fetchWeatherForCity, fetchWeatherP1, errorDisplayMain,
      errorDisplayP1]
  · subst hf
    cases cur with
    | err =>
      simp [fetchWeatherForCity, fetchWeatherP1, errorDisplayMain,
        errorDisplayP1]
    | ok c =>
      simp [fetchWeatherForCity, fetchWeatherP1, errorDisplayMain,
        errorDisplayP1, updateCurrentWeatherMain, hwf]

/-- Witness for C9 at a failing current-conditions fetch for "Cardiff". -/
theorem c9_fetch_failure_witness :
    (fetchWeatherForCity "Cardiff" "" "mph" Fetch.err Fetch.err
        {}).display.locationName =
      "Could not find weather for \"" ++ "Cardiff" ++ "\"" :=
  congrArg Display.locationName
    (c9_fetch_failure "Cardiff" "" "mph" "celsius" "mph" Fetch.err Fetch.err
      {} (Or.inl rfl)).1

/-- Counterexample for C9 as stated: on a failed fetch for "Cardiff",
`part_001` displays `Could not find "Cardiff"`, which is not the claimed
placeholder `Could not find weather for "Cardiff"` (nor its unquoted
variant). -/
theorem c9_fetch_failure_counterexample :
    (fetchWeatherP1 "Cardiff" "" "celsius" "mph" Fetch.err Fetch.err
        {}).display.locationName = "Could not find \"Cardiff\"" ∧
    ("Could not find \"Cardiff\"" : String) ≠
      "Could not find weather for \"Cardiff\"" ∧
    ("Could not find \"Cardiff\"" : String) ≠
      "Could not find weather for Cardiff" :=
  ⟨rfl, by decide, by decide⟩

/-- C10: at startup, a missing stored location loads as the hard-coded
default "Cardiff", a stored (non-empty) location takes precedence, and the
app's first HTTP request is the weather fetch for the loaded city. -/
theorem c10_startup_default :
    loadSettings none = "Cardiff" ∧
    (∀ s : String, s ≠ "" → loadSettings (some s) = s) ∧
    (∀ (saved : Option String) (todayStr windUnit : String)
        (cur : Fetch CurrentData) (fc : Fetch ForecastData) (d : Display),
      (startupMain saved todayStr windUnit cur fc d).requests.head? =
        some ("weather", loadSettings saved)) := by
  refine ⟨rfl, ?_, ?_⟩
  · intro s hs
    simp [loadSettings, hs]
  · intro saved todayStr windUnit cur fc d
    cases cur <;> cases fc <;> rfl

/-- Witness for C10: a stored location takes precedence. -/
theorem c10_startup_default_witness :
    loadSettings (some "Cardiff, Wales") = "Cardiff, Wales" :=
  c10_startup_default.2.1 "Cardiff, Wales" (by decide)

/-!  Claim C8: city-suggestion ranking. -/

theorem cityLE_trans (pl : List String) :
    ∀ (a b c : City), cityLE pl a b → cityLE pl b c → cityLE pl a c := by
  intro a b c hab hbc
  unfold cityLE at *
  by_cases pa : isPriority pl a <;> by_cases pb : isPriority pl b <;>
    by_cases pc : isPriority pl c <;>
    simp [pa, pb, pc, decide_eq_true_eq] at * <;> omega

theorem cityLE_total (pl : List String) :
    ∀ (a b : City), cityLE pl a b || cityLE pl b a := by
  intro a b
  unfold cityLE
  by_cases pa : isPriority pl a <;> by_cases pb : isPriority pl b <;>
    simp [pa, pb, decide_eq_true_eq] <;> omega

/-- On a two-element list, a stable sort compares the two elements once. -/
theorem mergeSort_pair {α : Type} (le : α → α → Bool)
    (htrans : ∀ (a b c : α), le a b → le b c → le a c)
    (htotal : ∀ (a b : α), le a b || le b a) (a b : α) :
    List.mergeSort [a, b] le = if le a b then [a, b] else [b, a] := by
  obtain ⟨l₁, l₂, h1, h2, h3⟩ := List.mergeSort_cons htrans htotal a [b]
  rw [List.mergeSort_singleton] at h2
  by_cases hab : le a b
  · rw [if_pos hab]
    cases l₁ with
    | nil =>
      simp only [List.nil_append] at h1 h2
      rw [h1, ← h2]
    | cons x xs =>
      exfalso
      have hx : b = x := by
        simpa using congrArg (fun l => l.head?) h2
      have hnot := h3 x (List.mem_cons_self x xs)
      rw [← hx, hab] at hnot
      simp at hnot
  · rw [if_neg hab]
    cases l₁ with
    | nil =>
      exfalso
      simp only [List.nil_append] at h1 h2
      have hs := List.sorted_mergeSort htrans htotal [a, b]
      rw [h1, ← h2] at hs
      exact hab (List.rel_of_pairwise_cons hs (List.mem_singleton.mpr rfl))
    | cons x xs =>
      have hx : b = x := by
        simpa using congrArg (fun l => l.head?) h2
      have hxs : xs ++ l₂ = [] := by
        simpa using (congrArg List.tail h2).symm
      rcases List.append_eq_nil.mp hxs with ⟨hxs', hl₂⟩
      subst hx hxs' hl₂
      simpa using h1

theorem prioritizeCitiesWith_stable (pl : List String) (cities : List City)
    (b : Bool) (v : Int) :
    (prioritizeCitiesWith pl cities).filter
        (fun c => isPriority pl c == b && popVal c == v) =
      cities.filter (fun c => isPriority pl c == b && popVal c == v) := by
  have hpair : (cities.filter
      (fun c => isPriority pl c == b && popVal c == v)).Pairwise
        (fun x y => cityLE pl x y = true) := by
    refine List.pairwise_of_forall_mem_list ?_
    intro x hx y hy
    rcases List.mem_filter.mp hx with ⟨-, hxP⟩
    rcases List.mem_filter.mp hy with ⟨-, hyP⟩
    simp only [Bool.and_eq_true, beq_iff_eq] at hxP hyP
    rcases hxP with ⟨hx1, hx2⟩
    rcases hyP with ⟨hy1, hy2⟩
    unfold cityLE
    rw [hx1, hy1]
    cases b <;> simp [hx2, hy2]
  have hsub : (cities.filter
      (fun c => isPriority pl c == b && popVal c == v)).Sublist
        (List.mergeSort cities (cityLE pl)) :=
    List.sublist_mergeSort (cityLE_trans pl) (cityLE_total pl) hpair
      (List.filter_sublist cities)
  have hperm : List.Perm
      ((List.mergeSort cities (cityLE pl)).filter
        (fun c => isPriority pl c == b && popVal c == v))
      (cities.filter (fun c => isPriority pl c == b && popVal c == v)) :=
    (List.mergeSort_perm cities (cityLE pl)).filter _
  have h0 : (cities.filter
      (fun c => isPriority pl c == b && popVal c == v)).filter
        (fun c => isPriority pl c == b && popVal c == v) =
      cities.filter (fun c => isPriority pl c == b && popVal c == v) := by
    rw [List.filter_eq_self]
    intro a ha
    exact (List.mem_filter.mp ha).2
  have hsubf := h0 ▸ (hsub.filter
    (fun c => isPriority pl c == b && popVal c == v))
  exact (hsubf.eq_of_length hperm.length_eq.symm).symm

/-- C8: the suggestion ranking is a permutation of its input, sorted by the
priority-then-descending-population comparator, stable on each
(priority, population) class; and whenever the priority list contains "USA"
but not "France", the USA entry with population 25K sorts before the France
entry with population 2M.  (In the code's fixed `PRIORITY_COUNTRIES`,
"France" is itself a priority country, so the example's premise applies to
priority lists satisfying it.) -/
theorem c8_city_ranking :
    (∀ cities : List City, List.Perm (prioritizeCities cities) cities) ∧
    (∀ cities : List City, (prioritizeCities cities).Pairwise
      (fun a b => cityLE PRIORITY_COUNTRIES a b = true)) ∧
    (∀ (cities : List City) (b : Bool) (v : Int),
      (prioritizeCities cities).filter
          (fun c => isPriority PRIORITY_COUNTRIES c == b && popVal c == v) =
        cities.filter
          (fun c => isPriority PRIORITY_COUNTRIES c == b && popVal c == v)) ∧
    (∀ pl : List String, "USA" ∈ pl → "France" ∉ pl →
      prioritizeCitiesWith pl [parisFR, parisUSA] = [parisUSA, parisFR]) := by
  refine ⟨?_, ?_, ?_, ?_⟩
  · intro cities
    exact List.mergeSort_perm cities _
  · intro cities
    exact List.sorted_mergeSort (cityLE_trans _) (cityLE_total _) cities
  · intro cities b v
    exact prioritizeCitiesWith_stable _ cities b v
  · intro pl hUSA hFR
    have hfr : isPriority pl parisFR = false := by
      unfold isPriority parisFR
      simpa using hFR
    have husa : isPriority pl parisUSA = true := by
      unfold isPriority parisUSA
      simpa using hUSA
    have h1 : cityLE pl parisFR parisUSA = false := by
      unfold cityLE
      rw [hfr, husa]
      simp
    unfold prioritizeCitiesWith
    rw [mergeSort_pair (cityLE pl) (cityLE_trans pl) (cityLE_total pl)
      parisFR parisUSA, h1]
    simp

/-- Witness for C8 with the priority list ["USA"]. -/
theorem c8_city_ranking_witness :
    prioritizeCitiesWith ["USA"] [parisFR, parisUSA] = [parisUSA, parisFR] :=
  c8_city_ranking.2.2.2 ["USA"] (by decide) (by decide)

/-!  Claims C1 and C2: day bucketing and hourly selection. -/

theorem intLE_trans :
    ∀ (a b c : Int), decide (a ≤ b) → decide (b ≤ c) → decide (a ≤ c) := by
  intro a b c h1 h2
  simp only [decide_eq_true_eq] at *
  omega

theorem intLE_total : ∀ (a b : Int), decide (a ≤ b) || decide (b ≤ a) := by
  intro a b
  rcases le_total a b with h | h <;> simp [h]

theorem groupForecastByDay_eq_spec (tz : Int) (data : ForecastData) :
    groupForecastByDay tz data = specDayPartition tz data.list := by
  unfold groupForecastByDay specDayPartition
  rw [groupAssoc_eq_assocSpec]
  unfold assocSpec
  rw [List.map_map]
  rfl

theorem groupAssoc_keys {α κ : Type} [BEq κ] [LawfulBEq κ] (key : α → κ)
    (l : List α) : (groupAssoc key l).map Prod.fst = firstSeen (l.map key) := by
  rw [groupAssoc_eq_assocSpec]
  unfold assocSpec
  rw [List.map_map]
  exact List.map_id _

theorem sortedDays_perm (tz : Int) (l : List Sample) :
    List.Perm (sortedDays tz l)
      (firstSeen (l.map (fun s => dateKey tz s.dt))) := by
  unfold sortedDays
  rw [groupAssoc_keys]
  exact List.mergeSort_perm _ _

theorem sortedDays_nodup (tz : Int) (l : List Sample) :
    (sortedDays tz l).Nodup :=
  (sortedDays_perm tz l).nodup_iff.mpr (nodup_firstSeen _)

theorem mainDayBuckets_eq_map_filter (tz : Int) (l : List Sample) :
    mainDayBuckets tz l =
      (sortedDays tz l).map
        (fun k => l.filter (fun s => dateKey tz s.dt == k)) := by
  unfold mainDayBuckets
  refine List.map_congr_left ?_
  intro k hk
  have hkK : k ∈ firstSeen (l.map (fun s => dateKey tz s.dt)) :=
    (sortedDays_perm tz l).mem_iff.mp hk
  rw [groupAssoc_eq_assocSpec]
  unfold assocSpec
  rw [lookup_map_pair_of_mem _ _ k hkK]
  rfl

/-- C1 (amended): both groupings partition the input exactly — no sample is
dropped or duplicated, the total count is the input length, and each bucket
is an in-source-order subsequence.  `part_001`'s `groupForecastByDay`
produces buckets in first-seen date-key order for every input (it equals the
spec partition); `src/src/main.js` produces buckets in ascending date-key
order, which coincides with the first-seen order whenever the input is
ascending by timestamp (as API-delivered lists are). -/
theorem c1_day_bucketing (tz : Int) (data : ForecastData) :
    groupForecastByDay tz data = specDayPartition tz data.list ∧
    List.Perm (groupForecastByDay tz data).flatten data.list ∧
    ((groupForecastByDay tz data).map List.length).sum = data.list.length ∧
    (∀ b ∈ groupForecastByDay tz data, b.Sublist data.list) ∧
    List.Perm (mainDayBuckets tz data.list).flatten data.list ∧
    ((mainDayBuckets tz data.list).map List.length).sum =
      data.list.length ∧
    (∀ b ∈ mainDayBuckets tz data.list, b.Sublist data.list) ∧
    (sortedDays tz data.list).Pairwise (fun a b => a ≤ b) ∧
    (data.list.Pairwise (fun s t => s.dt ≤ t.dt) →
      mainDayBuckets tz data.list = groupForecastByDay tz data) := by
  have hspec := groupForecastByDay_eq_spec tz data
  have hP1perm : List.Perm (groupForecastByDay tz data).flatten data.list := by
    rw [hspec]
    unfold specDayPartition
    exact flatten_partition_perm _ _ data.list (nodup_firstSeen _)
      (fun s hs => mem_firstSeen.mpr (List.mem_map_of_mem _ hs))
  have hmain := mainDayBuckets_eq_map_filter tz data.list
  have hMperm : List.Perm (mainDayBuckets tz data.list).flatten data.list := by
    rw [hmain]
    exact flatten_partition_perm _ _ data.list (sortedDays_nodup tz data.list)
      (fun s hs => (sortedDays_perm tz data.list).mem_iff.mpr
        (mem_firstSeen.mpr (List.mem_map_of_mem _ hs)))
  refine ⟨hspec, hP1perm, ?_, ?_, hMperm, ?_, ?_, ?_, ?_⟩
  · rw [← List.length_flatten]
    exact hP1perm.length_eq
  · intro b hb
    rw [hspec] at hb
    unfold specDayPartition at hb
    rcases List.mem_map.mp hb with ⟨k, -, rfl⟩
    exact List.filter_sublist _
  · rw [← List.length_flatten]
    exact hMperm.length_eq
  · intro b hb
    rw [hmain] at hb
    rcases List.mem_map.mp hb with ⟨k, -, rfl⟩
    exact List.filter_sublist _
  · have hs := List.sorted_mergeSort intLE_trans intLE_total
      ((groupAssoc (fun item => dateKey tz item.dt) data.list).map Prod.fst)
    exact hs.imp (fun h => by simpa using h)
  · intro hp
    have hkeys : (data.list.map (fun s => dateKey tz s.dt)).Pairwise
        (fun a b => a ≤ b) := by
      rw [List.pairwise_map]
      refine hp.imp ?_
      intro s t hst
      exact Int.ediv_le_ediv (by norm_num) (by omega)
    have hfs : (firstSeen (data.list.map (fun s => dateKey tz s.dt))).Pairwise
        (fun a b => a ≤ b) :=
      List.Pairwise.sublist (firstSeen_sublist _) hkeys
    have hsd : sortedDays tz data.list =
        firstSeen (data.list.map (fun s => dateKey tz s.dt)) := by
      unfold sortedDays
      rw [groupAssoc_keys]
      exact List.mergeSort_of_sorted (hfs.imp (fun h => decide_eq_true h))
    rw [hmain, hsd, hspec]
    rfl

/-- Witness for C1's conditional conjunct on an ascending two-day input. -/
theorem c1_day_bucketing_witness :
    mainDayBuckets 0 [sampleEarly, sampleLate] =
      groupForecastByDay 0 ⟨[sampleEarly, sampleLate]⟩ :=
  (c1_day_bucketing 0 ⟨[sampleEarly, sampleLate]⟩).2.2.2.2.2.2.2.2 (by decide)

/-- Counterexample for C1 as stated: on a descending two-day input,
`src/src/main.js` produces the buckets in ascending date order, not in
first-seen order (which `part_001` produces). -/
theorem c1_day_bucketing_counterexample :
    groupForecastByDay 0 ⟨[sampleLate, sampleEarly]⟩ =
      [[sampleLate], [sampleEarly]] ∧
    specDayPartition 0 [sampleLate, sampleEarly] =
      [[sampleLate], [sampleEarly]] ∧
    mainDayBuckets 0 [sampleLate, sampleEarly] =
      [[sampleEarly], [sampleLate]] ∧
    mainDayBuckets 0 [sampleLate, sampleEarly] ≠
      specDayPartition 0 [sampleLate, sampleEarly] := by
  have hsd : sortedDays 0 [sampleLate, sampleEarly] = [0, 1] := by
    show (((groupAssoc (fun item => dateKey 0 item.dt)
        [sampleLate, sampleEarly]).map Prod.fst).mergeSort
        (fun a b => decide (a ≤ b))) = [0, 1]
    have hkeys : (groupAssoc (fun item => dateKey 0 item.dt)
        [sampleLate, sampleEarly]).map Prod.fst = [1, 0] := rfl
    rw [hkeys, mergeSort_pair _ intLE_trans intLE_total 1 0,
      if_neg (by decide)]
  have hM : mainDayBuckets 0 [sampleLate, sampleEarly] =
      [[sampleEarly], [sampleLate]] := by
    unfold mainDayBuckets
    rw [hsd]
    rfl
  refine ⟨rfl, rfl, hM, ?_⟩
  intro heq
  rw [hM] at heq
  have hdt := congrArg
    (fun L => (L.map (fun b => b.map Sample.dt)).head?) heq
  simp [sampleEarly, sampleLate, specDayPartition, firstSeen, dateKey,
    List.filter] at hdt

/-- C2 (amended): for a day index with no bucket at that position,
`part_001`'s hourly selection yields the empty list (cards all hidden, no
throw), while `src/src/main.js` instead falls back to the first up-to-8
samples of the whole forecast list. -/
theorem c2_hourly_out_of_range (tz : Int) (data : ForecastData) (i : Nat)
    (h : (groupForecastByDay tz data).length ≤ i) :
    selectHourlyP1 tz data i = [] ∧
    selectHourlyMain tz data i = data.list.take 8 := by
  constructor
  · exact List.getD_eq_default _ _ h
  · unfold selectHourlyMain
    have hlen : (sortedDays tz data.list).length =
        (groupForecastByDay tz data).length := by
      unfold sortedDays groupForecastByDay
      rw [List.length_mergeSort]
      simp
    have hnone : (sortedDays tz data.list)[i]? = none := by
      rw [List.getElem?_eq_none]
      omega
    rw [hnone]
    simp [List.take_take]

/-- Witness for C2 at day index 5 of a one-day forecast. -/
theorem c2_hourly_out_of_range_witness :
    selectHourlyP1 0 ⟨[sampleEarly]⟩ 5 = [] ∧
    selectHourlyMain 0 ⟨[sampleEarly]⟩ 5 =
      (ForecastData.mk [sampleEarly]).list.take 8 :=
  c2_hourly_out_of_range 0 ⟨[sampleEarly]⟩ 5 (by decide)

/-- Counterexample for C2 as stated: with one bucket and day index 5,
`src/src/main.js` returns the first sample of the list (a day-0 sample,
i.e. data from another day), not an empty result. -/
theorem c2_hourly_out_of_range_counterexample :
    (groupForecastByDay 0 ⟨[sampleEarly]⟩).length ≤ 5 ∧
    selectHourlyMain 0 ⟨[sampleEarly]⟩ 5 = [sampleEarly] ∧
    ([sampleEarly] : List Sample) ≠ [] := by
  refine ⟨by decide, ?_, by simp⟩
  have hsd : sortedDays 0 [sampleEarly] = [0] := by
    show (((groupAssoc (fun item => dateKey 0 item.dt)
        [sampleEarly]).map Prod.fst).mergeSort
        (fun a b => decide (a ≤ b))) = [0]
    have hkeys : (groupAssoc (fun item => dateKey 0 item.dt)
        [sampleEarly]).map Prod.fst = [0] := rfl
    rw [hkeys, List.mergeSort_singleton]
  unfold selectHourlyMain
  rw [hsd]
  rfl

/-!  Claim C3: the representative condition code. -/

theorem bump_map_length :
    ∀ (A : List (String × List String)) (x : String),
    bump (A.map (fun kb => (kb.1, kb.2.length))) x =
      (addToBucket x x A).map (fun kb => (kb.1, kb.2.length))
  | [], _ => rfl
  | (k, b) :: rest, x => by
    simp only [List.map_cons, bump, addToBucket]
    by_cases hkx : (k == x) = true
    · rw [if_pos hkx, if_pos hkx]
      simp
    · rw [if_neg hkx, if_neg hkx]
      simp only [List.map_cons, List.cons.injEq, true_and]
      exact bump_map_length rest x

theorem buildCounts_eq_groupAssoc (icons : List String) :
    buildCounts icons =
      (groupAssoc (fun s => s) icons).map (fun kb => (kb.1, kb.2.length)) := by
  suffices h : ∀ (l : List String) (A : List (String × List String)),
      l.foldl bump (A.map (fun kb => (kb.1, kb.2.length))) =
        (l.foldl (fun acc s => addToBucket s s acc) A).map
          (fun kb => (kb.1, kb.2.length)) by
    have h0 := h icons []
    simpa [buildCounts, groupAssoc] using h0
  intro l
  induction l with
  | nil => intro A; rfl
  | cons x l' ih =>
    intro A
    rw [List.foldl_cons, List.foldl_cons, bump_map_length]
    exact ih (addToBucket x x A)

theorem count_eq_filter_length {κ : Type} [BEq κ] (l : List κ) (c : κ) :
    l.count c = (l.filter (fun s => s == c)).length := by
  rw [List.count_eq_countP, List.countP_eq_length_filter]

theorem buildCounts_spec (icons : List String) :
    buildCounts icons = (firstSeen icons).map
      (fun k => (k, icons.count k)) := by
  rw [buildCounts_eq_groupAssoc, groupAssoc_eq_assocSpec]
  unfold assocSpec
  rw [List.map_map, List.map_id']
  refine List.map_congr_left ?_
  intro k hk
  show (k, (icons.filter (fun s => s == k)).length) = (k, icons.count k)
  rw [count_eq_filter_length]

theorem foldl_argmax_first {κ : Type} (f : κ → Nat) :
    ∀ (K : List κ) (B : Option κ × Nat),
    ((K.map (fun k => (k, f k))).foldl
        (fun best kv => if kv.2 > best.2 then (some kv.1, kv.2) else best) B =
          B ∧ ∀ k ∈ K, f k ≤ B.2) ∨
    (∃ preK k postK, K = preK ++ k :: postK ∧
      (K.map (fun k => (k, f k))).foldl
        (fun best kv => if kv.2 > best.2 then (some kv.1, kv.2) else best) B =
          (some k, f k) ∧
      B.2 < f k ∧ (∀ j ∈ preK, f j < f k) ∧ (∀ j ∈ postK, f j ≤ f k)) := by
  intro K
  induction K with
  | nil =>
    intro B
    left
    exact ⟨rfl, by simp⟩
  | cons k₀ K' ih =>
    intro B
    rw [List.map_cons, List.foldl_cons]
    by_cases h0 : f k₀ > B.2
    · rw [if_pos h0]
      rcases ih (some k₀, f k₀) with ⟨heq, hle⟩ |
        ⟨pre', k', post', hK', hfold, hlt, hpre, hpost⟩
      · right
        exact ⟨[], k₀, K', rfl, heq, h0, by simp, fun j hj => hle j hj⟩
      · right
        refine ⟨k₀ :: pre', k', post', by rw [hK']; rfl, hfold, ?_, ?_, hpost⟩
        · have hlt' : f k₀ < f k' := hlt
          omega
        · intro j hj
          rcases List.mem_cons.mp hj with rfl | hj'
          · exact hlt
          · exact hpre j hj'
    · rw [if_neg h0]
      rcases ih B with ⟨heq, hle⟩ |
        ⟨pre', k', post', hK', hfold, hlt, hpre, hpost⟩
      · left
        refine ⟨heq, ?_⟩
        intro k hk
        rcases List.mem_cons.mp hk with rfl | hk'
        · omega
        · exact hle k hk'
      · right
        refine ⟨k₀ :: pre', k', post', by rw [hK']; rfl, hfold, hlt, ?_, hpost⟩
        intro j hj
        rcases List.mem_cons.mp hj with rfl | hj'
        · omega
        · exact hpre j hj'

theorem filter_decomp {κ : Type} (p : κ → Bool) :
    ∀ (L A B : List κ) (m : κ), L.filter p = A ++ m :: B →
    ∃ A' B', L = A' ++ m :: B' ∧ A'.filter p = A
  | [], A, B, m, h => by
    exfalso
    cases A <;> simp at h
  | x :: L', A, B, m, h => by
    by_cases hpx : p x
    · rw [List.filter_cons_of_pos hpx] at h
      cases A with
      | nil =>
        simp only [List.nil_append] at h
        rcases List.cons_eq_cons.mp h with ⟨rfl, -⟩
        exact ⟨[], L', rfl, rfl⟩
      | cons a A₂ =>
        rcases List.cons_eq_cons.mp h with ⟨rfl, h2⟩
        obtain ⟨A', B', hL', hA'⟩ := filter_decomp p L' A₂ B m h2
        refine ⟨x :: A', B', by rw [hL']; rfl, ?_⟩
        rw [List.filter_cons_of_pos hpx, hA']
    · rw [List.filter_cons_of_neg hpx] at h
      obtain ⟨A', B', hL', hA'⟩ := filter_decomp p L' A B m h
      refine ⟨x :: A', B', by rw [hL']; rfl, ?_⟩
      rw [List.filter_cons_of_neg hpx, hA']

theorem firstSeen_decomp {κ : Type} [BEq κ] [LawfulBEq κ] :
    ∀ (xs P Q : List κ) (m : κ), firstSeen xs = P ++ m :: Q →
    ∃ u v, xs = u ++ m :: v ∧ ∀ c ∈ u, c ∈ P
  | [], P, Q, m, h => by
    exfalso
    cases P <;> simp [firstSeen] at h
  | x :: xs', P, Q, m, h => by
    rw [firstSeen_cons] at h
    cases P with
    | nil =>
      simp only [List.nil_append] at h
      rcases List.cons_eq_cons.mp h with ⟨rfl, -⟩
      exact ⟨[], xs', rfl, by simp⟩
    | cons p₀ P' =>
      obtain ⟨hxp, h2⟩ := List.cons_eq_cons.mp h
      subst hxp
      obtain ⟨A', B', hfs, hA'⟩ :=
        filter_decomp (fun y => !(y == x)) (firstSeen xs') P' Q m h2
      obtain ⟨u', v', hxs', hu'⟩ := firstSeen_decomp xs' A' B' m hfs
      refine ⟨x :: u', v', by rw [hxs']; rfl, ?_⟩
      intro c hc
      rcases List.mem_cons.mp hc with rfl | hc'
      · exact List.mem_cons_self _ _
      · have hcA' : c ∈ A' := hu' c hc'
        by_cases hcp : (c == x) = true
        · have hcx : c = x := by simpa using hcp
          rw [hcx]
          exact List.mem_cons_self _ _
        · have hcP' : c ∈ A'.filter (fun y => !(y == x)) :=
            List.mem_filter.mpr ⟨hcA', by simp [hcp]⟩
          rw [hA'] at hcP'
          exact List.mem_cons_of_mem _ hcP'

/-- C3 (amended): `getMostCommonIcon` (the representative-code derivation of
`src/src/main.js`) returns a code of maximal occurrence count, and on ties
the code whose first occurrence comes earliest wins, with the spec's two
examples; but `part_001`'s daily forecast instead uses the first sample's
code as the representative, which for icons ["01d", "10d", "10d"] yields
"01d" rather than the majority code "10d". -/
theorem c3_representative_icon :
    (∀ icons : List String, icons ≠ [] →
      ∃ m, getMostCommonIcon icons = some m ∧ m ∈ icons ∧
        (∀ c ∈ icons, icons.count c ≤ icons.count m) ∧
        (∃ u v, icons = u ++ m :: v ∧
          ∀ c ∈ u, icons.count c < icons.count m)) ∧
    getMostCommonIcon ["10d", "10d", "01d"] = some "10d" ∧
    getMostCommonIcon ["10d", "01d"] = some "10d" ∧
    dailyIconP1 [sampleEarly, sampleLate, sampleLate] = some "01d" ∧
    getMostCommonIcon ["01d", "10d", "10d"] = some "10d" := by
  refine ⟨?_, by decide, by decide, rfl, by decide⟩
  intro icons hne
  have hbc := buildCounts_spec icons
  rcases foldl_argmax_first (fun k => icons.count k) (firstSeen icons)
      (icons.head?, 0) with ⟨heq, hle⟩ |
      ⟨preK, m, postK, hK, hfold, hBlt, hpre, hpost⟩
  · exfalso
    obtain ⟨k₀, hk₀⟩ : ∃ k, k ∈ firstSeen icons := by
      cases icons with
      | nil => exact absurd rfl hne
      | cons x xs => exact ⟨x, by rw [firstSeen_cons]; exact List.mem_cons_self _ _⟩
    have hk₀icons : k₀ ∈ icons := mem_firstSeen.mp hk₀
    have hpos : 0 < icons.count k₀ := List.count_pos_iff.mpr hk₀icons
    have := hle k₀ hk₀
    omega
  · have hfold' : (buildCounts icons).foldl
        (fun best kv => if kv.2 > best.2 then (some kv.1, kv.2) else best)
        (icons.head?, 0) = (some m, icons.count m) := by
      rw [hbc]
      exact hfold
    have hmain : getMostCommonIcon icons = some m := by
      unfold getMostCommonIcon
      rw [hfold']
    have hmK : m ∈ firstSeen icons := by
      rw [hK]
      exact List.mem_append.mpr (Or.inr (List.mem_cons_self _ _))
    refine ⟨m, hmain, mem_firstSeen.mp hmK, ?_, ?_⟩
    · intro c hc
      have hcK : c ∈ preK ++ m :: postK := by
        rw [← hK]
        exact mem_firstSeen.mpr hc
      rcases List.mem_append.mp hcK with hcpre | hcrest
      · exact Nat.le_of_lt (hpre c hcpre)
      · rcases List.mem_cons.mp hcrest with rfl | hcpost
        · exact Nat.le_refl _
        · exact hpost c hcpost
    · obtain ⟨u, v, hicons, hu⟩ := firstSeen_decomp icons preK postK m hK
      exact ⟨u, v, hicons, fun c hc => hpre c (hu c hc)⟩

/-- Witness for C3's general conjunct on the tie example ["10d", "01d"]. -/
theorem c3_representative_icon_witness :
    ∃ m, getMostCommonIcon ["10d", "01d"] = some m ∧
      m ∈ ["10d", "01d"] ∧
      (∀ c ∈ ["10d", "01d"],
        (["10d", "01d"] : List String).count c ≤
          (["10d", "01d"] : List String).count m) ∧
      (∃ u v, ["10d", "01d"] = u ++ m :: v ∧
        ∀ c ∈ u, (["10d", "01d"] : List String).count c <
          (["10d", "01d"] : List String).count m) :=
  c3_representative_icon.1 ["10d", "01d"] (by decide)

/-- Counterexample for C3 as stated: `part_001`'s representative code for a
bucket whose codes are ["01d", "10d", "10d"] is the first sample's "01d",
whose occurrence count is strictly below that of "10d". -/
theorem c3_representative_icon_counterexample :
    dailyIconP1 [sampleEarly, sampleLate, sampleLate] = some "01d" ∧
    [sampleEarly, sampleLate, sampleLate].map Sample.icon =
      ["01d", "10d", "10d"] ∧
    (["01d", "10d", "10d"] : List String).count "01d" <
      (["01d", "10d", "10d"] : List String).count "10d" :=
  ⟨rfl, rfl, by decide⟩

end WeatherApp

